import Mathlib

/-!
# Verification of the `nn_with_cpp` tensor / layer / optimizer core

This file is a shallow embedding of the neural-network core of the
repository (the `Tensor` container, the loss functions, the `Softmax`
and `Dense` layers, the `Adam` optimizer, and the `Model` orchestration)
together with proofs and refutations of the frozen specification claims.

Modelling conventions:
* C++ `float` values are modelled as exact rationals `ℚ`.  Calls to the
  transcendental library functions `std::log` and `std::sqrt` are
  modelled as explicit function parameters (`clog`, `sqrtF`), since the
  claims under study never depend on their numeric values.
* Fallible C++ code (functions that `throw`) is modelled with
  `Except TError`; the three error constructors mirror the three
  exception classes thrown by the core (`std::invalid_argument`,
  `std::out_of_range`, `std::runtime_error`).
* A C++ buffer (`float*` of length `totalSize`) is modelled as a
  `List ℚ`; an unallocated (`nullptr`) buffer of size 0 is the empty
  list, and freshly allocated storage (whose contents the source leaves
  undefined) is modelled as zero-filled.
-/

namespace NNCpp

/-- The exception classes thrown by the core:
`std::invalid_argument`, `std::out_of_range`, `std::runtime_error`. -/
inductive TError where
  | invalidArgument
  | outOfRange
  | runtimeError
deriving Repr, DecidableEq

/-- `enum class Backend { CPU, GPU }` from `nn_types.h`. -/
inductive Backend where
  | CPU
  | GPU
deriving Repr, DecidableEq

/-- The `Tensor` class from `src/nn/Tensor.h`: a shape, the cached
`totalSize` field, and the flat CPU buffer (row-major).  The GPU buffer
is not modelled: no claim under study observes GPU residency. -/
structure Tensor where
  shape : List Nat
  totalSize : Nat
  cpu_data : List ℚ
deriving Repr, DecidableEq

namespace Tensor

/-- `Tensor::calculateSize`: 0 for the empty shape, otherwise the
product of the dimensions (`std::accumulate` with initial value 1). -/
def calculateSize (shape : List Nat) : Nat :=
  if shape.isEmpty then 0 else shape.prod

/-- The default constructor `Tensor()`: empty shape, size 0, no data. -/
def empty : Tensor := ⟨[], 0, []⟩

/-- `Tensor::Tensor(const std::vector<size_t>& shape)`: stores the
shape, runs `calculateSize`, and allocates the CPU buffer (contents
undefined in the source, zero here; `allocateCpu` is a no-op when
`totalSize == 0`, giving an empty buffer). -/
def ofShape (shape : List Nat) : Tensor :=
  ⟨shape, calculateSize shape, List.replicate (calculateSize shape) 0⟩

/-- `getShape()`. -/
def getShape (t : Tensor) : List Nat := t.shape

/-- `getRows()`: `shape.empty() ? 0 : shape[0]`. -/
def getRows (t : Tensor) : Nat := t.shape.getD 0 0

/-- `getCols()`: `shape.size() < 2 ? 0 : shape[1]`. -/
def getCols (t : Tensor) : Nat :=
  if t.shape.length < 2 then 0 else t.shape.getD 1 0

/-- `getSize()`: the stored `totalSize` field. -/
def getSize (t : Tensor) : Nat := t.totalSize

/-- Raw flat read `cpu_data[k]` (reads of allocated storage are always
in bounds in the modelled code paths; out-of-range reads default 0). -/
def atIdx (t : Tensor) (k : Nat) : ℚ := t.cpu_data.getD k 0

/-- `Tensor::get(row, col)`: bounds-checked element access, reading
`cpu_data[row * getCols() + col]`. -/
def get (t : Tensor) (row col : Nat) : Except TError ℚ :=
  if row ≥ t.getRows ∨ col ≥ t.getCols then .error .outOfRange
  else .ok (t.atIdx (row * t.getCols + col))

/-- `Tensor::set(row, col, value)`: bounds-checked element write at
`cpu_data[row * getCols() + col]`. -/
def set (t : Tensor) (row col : Nat) (value : ℚ) : Except TError Tensor :=
  if row ≥ t.getRows ∨ col ≥ t.getCols then .error .outOfRange
  else .ok { t with cpu_data := t.cpu_data.set (row * t.getCols + col) value }

/-- `Tensor::reshape(newShape)`: recomputes the product of the new
shape (`std::accumulate` with initial value 1), throws
`std::invalid_argument` when it differs from `totalSize`, and otherwise
assigns only the `shape` member — `totalSize` and the data buffer are
untouched. -/
def reshape (t : Tensor) (newShape : List Nat) : Except TError Tensor :=
  if newShape.prod ≠ t.totalSize then .error .invalidArgument
  else .ok { t with shape := newShape }

/-- The copy constructor: copies shape, `totalSize` and whichever
buffers are populated. -/
def copy (t : Tensor) : Tensor := ⟨t.shape, t.totalSize, t.cpu_data⟩

/-- The move constructor: the destination receives all members and the
moved-from source is left empty (empty shape, size 0, null buffers).
The pair is (destination, moved-from source). -/
def moveFrom (t : Tensor) : Tensor × Tensor := (⟨t.shape, t.totalSize, t.cpu_data⟩, empty)

/-- `Tensor::getRow(row)`: bounds-checked extraction of one row as a
fresh `{1, getCols()}` tensor. -/
def getRow (t : Tensor) (row : Nat) : Except TError Tensor :=
  if row ≥ t.getRows then .error .outOfRange
  else .ok ⟨[1, t.getCols], t.getCols,
    (List.range t.getCols).map (fun j => t.atIdx (row * t.getCols + j))⟩

/-- `Tensor::diag(v)`: requires a single-row vector; returns the n×n
tensor with `v` on the diagonal (buffer entry `i*n + j` is set to
`v.get(0,i)` when `i == j` and 0 otherwise). -/
def diag (v : Tensor) : Except TError Tensor :=
  if v.getRows ≠ 1 then .error .invalidArgument
  else
    let n := v.getCols
    .ok ⟨[n, n], n * n,
      (List.range (n * n)).map (fun k => if k / n = k % n then v.atIdx (k % n) else 0)⟩

/-- `Tensor::outer(v1, v2)`: requires two single-row vectors; returns
the n1×n2 tensor with entry `(i,j) = v1[i] * v2[j]`. -/
def outer (v1 v2 : Tensor) : Except TError Tensor :=
  if v1.getRows ≠ 1 ∨ v2.getRows ≠ 1 then .error .invalidArgument
  else
    let n1 := v1.getCols
    let n2 := v2.getCols
    .ok ⟨[n1, n2], n1 * n2,
      (List.range (n1 * n2)).map (fun k => v1.atIdx (k / n2) * v2.atIdx (k % n2))⟩

/-- `Tensor::multiply(other)`: element-wise Hadamard product; throws
`std::invalid_argument` unless the two shapes are identical. -/
def multiply (t other : Tensor) : Except TError Tensor :=
  if t.shape ≠ other.shape then .error .invalidArgument
  else .ok ⟨t.shape, calculateSize t.shape,
    (List.range t.getSize).map (fun i => t.atIdx i * other.atIdx i)⟩

/-- `Tensor::operator-(other)`: element-wise subtraction; throws
`std::invalid_argument` unless the two shapes are identical. -/
def sub (t other : Tensor) : Except TError Tensor :=
  if t.shape ≠ other.shape then .error .invalidArgument
  else .ok ⟨t.shape, calculateSize t.shape,
    (List.range t.getSize).map (fun i => t.atIdx i - other.atIdx i)⟩

/-- `Tensor::transpose()`: throws `std::invalid_argument` on non-2D
shapes; otherwise builds the `{cols, rows}` tensor whose entry `(j,i)`
is set to `get(i,j)` (flat entry `k` of the result, with `j = k / rows`
and `i = k % rows`, reads source entry `i * cols + j`). -/
def transpose (t : Tensor) : Except TError Tensor :=
  if t.shape.length ≠ 2 then .error .invalidArgument
  else .ok ⟨[t.getCols, t.getRows], t.getCols * t.getRows,
    (List.range (t.getCols * t.getRows)).map
      (fun k => t.atIdx ((k % t.getRows) * t.getCols + (k / t.getRows)))⟩

/-- Well-formedness of a rank-2 tensor as produced by the constructor:
the cached size is the row/column product and the buffer has exactly
that many entries. -/
def WF2 (t : Tensor) : Prop :=
  t.shape.length = 2 ∧ t.totalSize = t.getRows * t.getCols ∧
    t.cpu_data.length = t.totalSize

end Tensor

/-- `static_cast<int>` applied to a stored label value: truncation
toward zero. -/
def truncToInt (q : ℚ) : Int := if 0 ≤ q then ⌊q⌋ else -⌊-q⌋

/-- The `1e-9f` clamp used by `CrossEntropyLoss::forward`. -/
def ceEps : ℚ := 1 / 1000000000

/-- `MeanSquaredError::forward` (from the built `src/nn/Loss.cpp`):
throws `std::invalid_argument` when the shapes differ, otherwise
returns the sum of squared differences over the flat buffers divided by
`getSize()`. -/
def MeanSquaredError.forward (y_pred y_true : Tensor) : Except TError ℚ :=
  if y_pred.getShape ≠ y_true.getShape then .error .invalidArgument
  else .ok ((((List.range y_pred.getSize).map
      (fun i => (y_pred.atIdx i - y_true.atIdx i) * (y_pred.atIdx i - y_true.atIdx i))).sum)
    / (y_pred.getSize : ℚ))

/-- `MeanSquaredError::backward` (from the built `src/nn/Loss.cpp`):
throws `std::invalid_argument` when the shapes differ, otherwise fills
a gradient tensor of the prediction's shape with
`2 * (pred[i] - true[i]) / getSize()`. -/
def MeanSquaredError.backward (y_pred y_true : Tensor) : Except TError Tensor :=
  if y_pred.getShape ≠ y_true.getShape then .error .invalidArgument
  else .ok ⟨y_pred.shape, Tensor.calculateSize y_pred.shape,
    (List.range y_pred.getSize).map
      (fun i => 2 * (y_pred.atIdx i - y_true.atIdx i) / (y_pred.getSize : ℚ))⟩

/-- `CrossEntropyLoss::forward`, parametrised by the `std::log`
implementation `clog`.  Throws when the row counts differ; in the
one-hot branch (equal shapes) subtracts `clog (max pred ε)` for every
label entry strictly greater than 0; in the class-index branch (single
label column) does so for every row whose truncated class index lies in
`[0, cols)`; otherwise throws.  Returns the accumulated loss divided by
the number of prediction rows. -/
def CrossEntropyLoss.forward (clog : ℚ → ℚ) (y_pred y_true : Tensor) : Except TError ℚ :=
  if y_pred.getRows ≠ y_true.getRows then .error .invalidArgument
  else if y_pred.getShape = y_true.getShape then
    .ok ((-((List.range y_pred.getRows).map (fun i =>
        ((List.range y_pred.getCols).map (fun j =>
          if y_true.atIdx (i * y_true.getCols + j) > 0 then
            clog (max (y_pred.atIdx (i * y_pred.getCols + j)) ceEps)
          else 0)).sum)).sum)
      / (y_pred.getRows : ℚ))
  else if y_true.getCols = 1 then
    .ok ((-((List.range y_pred.getRows).map (fun i =>
        let class_idx := truncToInt (y_true.atIdx i)
        if 0 ≤ class_idx ∧ class_idx < (y_pred.getCols : Int) then
          clog (max (y_pred.atIdx (i * y_pred.getCols + class_idx.toNat)) ceEps)
        else 0)).sum)
      / (y_pred.getRows : ℚ))
  else .error .invalidArgument

/-- `CrossEntropyLoss::backward`: gradient tensor of the prediction's
shape.  One-hot branch: entry `(i,j)` is `(pred - true) / rows`.
Class-index branch: every entry of row `i` is `pred / rows`, after
which the entry at the truncated class index — only when it lies in
`[0, cols)` — is overwritten with `(pred - 1) / rows`.  Throws on any
other shape combination. -/
def CrossEntropyLoss.backward (y_pred y_true : Tensor) : Except TError Tensor :=
  if y_pred.getShape = y_true.getShape then
    .ok ⟨y_pred.shape, Tensor.calculateSize y_pred.shape,
      (List.range (y_pred.getRows * y_pred.getCols)).map (fun k =>
        (y_pred.atIdx k - y_true.atIdx k) / (y_pred.getRows : ℚ))⟩
  else if y_true.getCols = 1 then
    .ok ⟨y_pred.shape, Tensor.calculateSize y_pred.shape,
      (List.range (y_pred.getRows * y_pred.getCols)).map (fun k =>
        let class_idx := truncToInt (y_true.atIdx (k / y_pred.getCols))
        if 0 ≤ class_idx ∧ class_idx < (y_pred.getCols : Int) ∧
            class_idx.toNat = k % y_pred.getCols then
          (y_pred.atIdx k - 1) / (y_pred.getRows : ℚ)
        else y_pred.atIdx k / (y_pred.getRows : ℚ))⟩
  else .error .invalidArgument

namespace Softmax

/-- The copy loop inside the Jacobian `try` block of
`Softmax::backward`: `grad_input.set(i, j, row_grad.get(0, j))` for
every `j` below `grad_input.getCols()`. -/
def copyRow (grad_input row_grad : Tensor) (i : Nat) : Except TError Tensor :=
  (List.range grad_input.getCols).foldlM (fun gi j => do
    let v ← row_grad.get 0 j
    gi.set i j v) grad_input

/-- The `catch` block of `Softmax::backward`: pass the incoming
gradient row through unchanged,
`grad_input.set(i, j, grad_output.get(i, j))`. -/
def passRow (grad_input grad_output : Tensor) (i : Nat) : Except TError Tensor :=
  (List.range grad_input.getCols).foldlM (fun gi j => do
    let v ← grad_output.get i j
    gi.set i j v) grad_input

/-- One iteration of the per-row loop of `Softmax::backward`:
the `try` block extracts the cached output row `s` and gradient row
`g`, forms `diag(s) - outer(s, s)` and calls `Tensor::multiply` on it
(the comment in the source reads `J * g`, but `multiply` is the
element-wise product), then copies the row into `grad_input`; any
`std::exception` from that block is caught and the row is passed
through unchanged (errors raised inside the `catch` block itself
propagate). -/
def backwardRow (last_output grad_output grad_input : Tensor) (i : Nat) :
    Except TError Tensor :=
  match (do
    let s ← last_output.getRow i
    let g ← grad_output.getRow i
    let d ← Tensor.diag s
    let o ← Tensor.outer s s
    let jacobian ← d.sub o
    let row_grad ← jacobian.multiply g
    copyRow grad_input row_grad i : Except TError Tensor) with
  | .ok gi => .ok gi
  | .error _ => passRow grad_input grad_output i

/-- `Softmax::backward` as a function of the cached forward output
`last_output` (the `this->last_output` member) and the incoming
gradient: the same-shape shortcut returns the gradient unchanged,
otherwise a fresh tensor of the gradient's shape is filled row by row
by `backwardRow`. -/
def backward (last_output grad_output : Tensor) : Except TError Tensor :=
  if grad_output.getShape = last_output.getShape then .ok grad_output
  else
    (List.range last_output.getRows).foldlM
      (fun gi i => backwardRow last_output grad_output gi i)
      (Tensor.ofShape grad_output.getShape)

end Softmax

/-- The `Moments` record of the `Adam` optimizer (`Adam.h`): first and
second moment tensors plus the per-parameter step counter `int t = 0`.
Default-constructed entries (as inserted by `unordered_map::operator[]`)
hold default `Tensor`s and `t = 0`. -/
structure AdamMoments where
  m : Tensor := Tensor.empty
  v : Tensor := Tensor.empty
  t : Int := 0
deriving Repr, DecidableEq

/-- The constructor arguments of `Adam`. -/
structure AdamCfg where
  learning_rate : ℚ
  beta1 : ℚ
  beta2 : ℚ
  epsilon : ℚ

/-- `Adam::update` (the implementation matching the `state_by_param`
declaration in `Adam.h`), parametrised by the `std::sqrt`
implementation `sqrtF`.  The C++ keys `state_by_param` by the address
of the parameter tensor; the model keys it by an abstract parameter
identity `key : Nat`, with the map modelled as a total function whose
default entries mirror `operator[]` insertion.  `std::pow(beta, t)` for
the positive counter `t` is `beta ^ t.toNat`.  Returns the updated
parameter tensor and the updated state map. -/
def Adam.update (sqrtF : ℚ → ℚ) (cfg : AdamCfg) (st : Nat → AdamMoments)
    (key : Nat) (weights grad_weights : Tensor) :
    Tensor × (Nat → AdamMoments) :=
  let moments0 := st key
  -- `if (moments.m.getSize() == 0)`: lazy zero-initialisation of the
  -- moment buffers to the parameter's shape, and `t = 0`.
  let moments1 := if moments0.m.getSize = 0 then
      { m := Tensor.ofShape weights.getShape, v := Tensor.ofShape weights.getShape, t := 0 }
    else moments0
  let tNew := moments1.t + 1
  let mData := (List.range weights.getSize).map (fun i =>
    cfg.beta1 * moments1.m.atIdx i + (1 - cfg.beta1) * grad_weights.atIdx i)
  let vData := (List.range weights.getSize).map (fun i =>
    cfg.beta2 * moments1.v.atIdx i +
      (1 - cfg.beta2) * grad_weights.atIdx i * grad_weights.atIdx i)
  let wData := (List.range weights.getSize).map (fun i =>
    let mi := cfg.beta1 * moments1.m.atIdx i + (1 - cfg.beta1) * grad_weights.atIdx i
    let vi := cfg.beta2 * moments1.v.atIdx i +
      (1 - cfg.beta2) * grad_weights.atIdx i * grad_weights.atIdx i
    let m_hat := mi / (1 - cfg.beta1 ^ tNew.toNat)
    let v_hat := vi / (1 - cfg.beta2 ^ tNew.toNat)
    weights.atIdx i - cfg.learning_rate * m_hat / (sqrtF v_hat + cfg.epsilon))
  let moments2 : AdamMoments :=
    { m := { moments1.m with cpu_data := mData ++ moments1.m.cpu_data.drop weights.getSize },
      v := { moments1.v with cpu_data := vData ++ moments1.v.cpu_data.drop weights.getSize },
      t := tNew }
  ({ weights with cpu_data := wData ++ weights.cpu_data.drop weights.getSize },
   fun k => if k = key then moments2 else st k)

/-- `CpuOps::matmul(a, b, c)`: dimension checks, then the reference
triple loop writing `c(i, j) = Σ_k a(i, k) * b(k, j)`. -/
def CpuOps.matmul (a b c : Tensor) : Except TError Tensor :=
  if a.getCols ≠ b.getRows then .error .invalidArgument
  else if c.getRows ≠ a.getRows ∨ c.getCols ≠ b.getCols then .error .invalidArgument
  else .ok { c with cpu_data :=
    ((List.range (a.getRows * b.getCols)).map (fun k =>
      ((List.range a.getCols).map (fun kk =>
        a.atIdx ((k / b.getCols) * a.getCols + kk) *
          b.atIdx (kk * b.getCols + (k % b.getCols)))).sum))
    ++ c.cpu_data.drop (a.getRows * b.getCols) }

/-- The bias-broadcast loop shared by every branch of `Dense::forward`:
`output.set(i, j, output.get(i, j) + biases.get(0, j))`; the
bounds-checked `biases.get(0, j)` throws once the loop reaches a column
outside the bias tensor. -/
def addBias (output biases : Tensor) : Except TError Tensor :=
  if 0 < output.getRows ∧ 0 < output.getCols ∧
      (biases.getRows = 0 ∨ biases.getCols < output.getCols) then .error .outOfRange
  else .ok { output with cpu_data :=
    ((List.range (output.getRows * output.getCols)).map (fun k =>
      output.atIdx k + biases.atIdx (k % output.getCols)))
    ++ output.cpu_data.drop (output.getRows * output.getCols) }

/-- The affine computation of `Dense::forward`: a fresh
`{input.getRows(), weights.getCols()}` output tensor, the matmul, then
the bias broadcast.  Both backends compute this same value: the CUDA
kernel computes `C = A * B` with the same dimension guard, and the bias
loop runs on the CPU in every branch. -/
def denseAffine (input weights biases : Tensor) : Except TError Tensor := do
  let output := Tensor.ofShape [input.getRows, weights.getCols]
  let output ← CpuOps.matmul input weights output
  addBias output biases

/-- The state of a `Dense` layer (`Dense.h`): parameters, gradient
buffers, the forward caches inherited from `Layer`, and the layer's own
private `backendType` member (initialised to `Backend::CPU`). -/
structure DenseLayer where
  weights : Tensor
  biases : Tensor
  grad_weights : Tensor
  grad_biases : Tensor
  last_input : Tensor := Tensor.empty
  last_output : Tensor := Tensor.empty
  backendType : Backend := Backend.CPU
deriving Repr, DecidableEq

/-- `Dense::forward`, with the outcome of the GPU attempt (transfers,
allocation, kernel launch — external CUDA behaviour) abstracted into
`gpuFail`.  The `try` block attempts the selected backend; on any
exception the `catch` block assigns `backendType = Backend::CPU` (the
layer's own member) and recomputes on the CPU path; an exception from
that recomputation propagates to the caller. -/
def Dense.forward (gpuFail : Bool) (L : DenseLayer) (input : Tensor) :
    Except TError (DenseLayer × Tensor) :=
  let L1 := { L with last_input := input }
  let attempt : Except TError Tensor :=
    if L.backendType = Backend.GPU ∧ gpuFail = true then .error .runtimeError
    else denseAffine input L.weights L.biases
  match attempt with
  | .ok out => .ok ({ L1 with last_output := out }, out)
  | .error _ =>
    match denseAffine input L.weights L.biases with
    | .ok out => .ok ({ L1 with backendType := Backend.CPU, last_output := out }, out)
    | .error e => .error e

/-- The bias-gradient loop of `Dense::backward`:
`grad_biases.set(0, j, (Σ_i grad_output.get(i, j)) / rows)` for each
column `j` of the incoming gradient. -/
def denseBiasGrad (grad_biases grad_output : Tensor) : Except TError Tensor :=
  if 0 < grad_output.getCols ∧
      (grad_biases.getRows = 0 ∨ grad_biases.getCols < grad_output.getCols) then
    .error .outOfRange
  else .ok { grad_biases with cpu_data :=
    ((List.range grad_output.getCols).map (fun j =>
      (((List.range grad_output.getRows).map (fun i =>
        grad_output.atIdx (i * grad_output.getCols + j))).sum)
        / (grad_output.getRows : ℚ)))
    ++ grad_biases.cpu_data.drop grad_output.getCols }

/-- The gradient computation shared by the branches of
`Dense::backward`: `grad_weights = last_input^T @ grad_output`, then
the bias-gradient loop, then `grad_input = grad_output @ weights^T`. -/
def denseBackwardCompute (last_input_T weights_T grad_output gw0 gb0 gi0 : Tensor) :
    Except TError (Tensor × Tensor × Tensor) := do
  let gw ← CpuOps.matmul last_input_T grad_output gw0
  let gb ← denseBiasGrad gb0 grad_output
  let gi ← CpuOps.matmul grad_output weights_T gi0
  pure (gw, gb, gi)

/-- `Dense::backward`: the two transposes run before the `try` block
(errors there propagate directly); the `try` block attempts the
selected backend, and on any exception the `catch` assigns
`backendType = Backend::CPU` and recomputes on the CPU path. -/
def Dense.backward (gpuFail : Bool) (L : DenseLayer) (grad_output : Tensor) :
    Except TError (DenseLayer × Tensor) := do
  let last_input_T ← L.last_input.transpose
  let weights_T ← L.weights.transpose
  let grad_input0 := Tensor.ofShape [grad_output.getRows, weights_T.getCols]
  let attempt : Except TError (Tensor × Tensor × Tensor) :=
    if L.backendType = Backend.GPU ∧ gpuFail = true then .error .runtimeError
    else denseBackwardCompute last_input_T weights_T grad_output
      L.grad_weights L.grad_biases grad_input0
  match attempt with
  | .ok (gw, gb, gi) => .ok ({ L with grad_weights := gw, grad_biases := gb }, gi)
  | .error _ =>
    match denseBackwardCompute last_input_T weights_T grad_output
        L.grad_weights L.grad_biases grad_input0 with
    | .ok (gw, gb, gi) =>
      .ok ({ L with backendType := Backend.CPU, grad_weights := gw, grad_biases := gb }, gi)
    | .error e => .error e

/-- A model whose layers are all `Dense` (the only layer kind with
backend support), with the model's own `backendType` member. -/
structure ModelD where
  layers : List DenseLayer
  backendType : Backend := Backend.CPU

/-- `Model::setBackend`: stores the choice in the model's own member
and propagates it to every `Dense` layer. -/
def ModelD.setBackend (m : ModelD) (ty : Backend) : ModelD :=
  { backendType := ty, layers := m.layers.map (fun L => { L with backendType := ty }) }

/-- `Model::forward` over a list of `Dense` layers, threading each
layer's output into the next and collecting the mutated layer states;
`fail i` gives the outcome of layer `i`'s GPU attempt on this pass. -/
def forwardLayers (fail : Nat → Bool) : Nat → List DenseLayer → Tensor →
    Except TError (List DenseLayer × Tensor)
  | _, [], x => .ok ([], x)
  | i, L :: rest, x => do
    let (L', y) ← Dense.forward (fail i) L x
    let (rest', out) ← forwardLayers fail (i + 1) rest y
    .ok (L' :: rest', out)

/-- `Model::forward` at the model level: runs the layer chain and
returns the updated model (the model's `backendType` member is not
touched by `forward`). -/
def ModelD.forward (fail : Nat → Bool) (m : ModelD) (input : Tensor) :
    Except TError (ModelD × Tensor) := do
  let (ls, out) ← forwardLayers fail 0 m.layers input
  .ok ({ m with layers := ls }, out)

/-- The argmax loop of `Model::evaluate`: starts from class 0 with
probability `y_pred.get(i, 0)` and takes the first strictly greater
entry scanning columns 1.. . -/
def predClass (y_pred : Tensor) (i : Nat) : Nat :=
  ((List.range' 1 (y_pred.getCols - 1)).foldl (fun acc j =>
    if y_pred.atIdx (i * y_pred.getCols + j) > acc.2
    then (j, y_pred.atIdx (i * y_pred.getCols + j)) else acc)
    ((0 : Nat), y_pred.atIdx (i * y_pred.getCols))).1

/-- The one-hot true-class scan of `Model::evaluate`: the first column
whose label entry exceeds `0.5`, defaulting to 0. -/
def trueClassOneHot (y_test : Tensor) (i : Nat) : Nat :=
  match (List.range y_test.getCols).find?
      (fun j => y_test.atIdx (i * y_test.getCols + j) > 1/2) with
  | some j => j
  | none => 0

/-- The accuracy block of `Model::evaluate` (lines 52–102): the
one-hot branch when label and prediction shapes agree, the class-index
branch when the label has one column, and — with no `else` — zero
correct predictions for any other label shape.  The initial
`y_pred.get(i, 0)` of the argmax loop is kept bounds-checked; the
negative-label cast `static_cast<size_t>` is modelled by truncation to
`Nat`. -/
def countCorrect (y_pred y_test : Tensor) : Except TError Nat :=
  if y_test.getShape = y_pred.getShape then
    (List.range y_test.getRows).foldlM (fun correct i => do
      let _ ← y_pred.get i 0
      pure (if predClass y_pred i = trueClassOneHot y_test i then correct + 1 else correct))
      (0 : Nat)
  else if y_test.getCols = 1 then
    (List.range y_test.getRows).foldlM (fun correct i => do
      let _ ← y_pred.get i 0
      let tv ← y_test.get i 0
      pure (if predClass y_pred i = (truncToInt tv).toNat then correct + 1 else correct))
      (0 : Nat)
  else .ok 0

/-- `Model::evaluate`: forward pass (the layer chain abstracted as
`forwardF`), the loss (the polymorphic `Loss` collaborator abstracted
as `lossF`), then the accuracy `correct / X_test.getRows()`. -/
def Model.evaluate (forwardF : Tensor → Tensor)
    (lossF : Tensor → Tensor → Except TError ℚ)
    (X_test y_test : Tensor) : Except TError (ℚ × ℚ) := do
  let y_pred := forwardF X_test
  let loss ← lossF y_pred y_test
  let correct ← countCorrect y_pred y_test
  pure (loss, (correct : ℚ) / (X_test.getRows : ℚ))

/-! ## General helper lemmas -/

lemma except_ok_bind {ε α β : Type} (a : α) (f : α → Except ε β) :
    (Except.ok a : Except ε α) >>= f = f a := rfl

lemma except_error_bind {ε α β : Type} (e : ε) (f : α → Except ε β) :
    (Except.error e : Except ε α) >>= f = .error e := rfl

lemma getD_map_range (f : Nat → ℚ) {n k : Nat} (h : k < n) :
    ((List.range n).map f).getD k 0 = f k := by
  rw [List.getD_eq_getElem _ _ (by simpa using h)]
  simp

lemma sum_map_range (f : Nat → ℚ) (n : Nat) :
    ((List.range n).map f).sum = ∑ i ∈ Finset.range n, f i := by
  induction n with
  | zero => simp
  | succ n ih =>
    rw [List.range_succ, List.map_append, List.sum_append, Finset.sum_range_succ, ih]
    simp

lemma mul_add_mod_lt (a b c : ℕ) (h : c < b) : (a * b + c) % b = c := by
  rw [Nat.add_comm]
  simp [Nat.add_mul_mod_self_right, Nat.mod_eq_of_lt h]

lemma mul_add_div_lt (a b c : ℕ) (h : c < b) : (a * b + c) / b = a := by
  rw [Nat.add_comm, Nat.add_mul_div_right _ _ (by omega : 0 < b),
    Nat.div_eq_of_lt h, Nat.zero_add]

lemma atIdx_map_range (s : List Nat) (ts : Nat) (f : Nat → ℚ) {n k : Nat} (h : k < n) :
    (Tensor.mk s ts ((List.range n).map f)).atIdx k = f k := by
  simpa [Tensor.atIdx] using getD_map_range f h

/-! ## C4 — reshape succeeds iff the element product is preserved and
never touches the data -/

/-- C4: `reshape(new_shape)` succeeds exactly when the product of the
new dimensions equals the stored `element_count` (`totalSize`), fails
with a shape error (`std::invalid_argument`) otherwise, and a
successful reshape reuses the flat buffer unchanged, so every
row-major element read at `k < element_count` yields the same value as
before. -/
theorem c4_reshape_product_and_data_preserved (t : Tensor) (ns : List Nat) :
    (ns.prod = t.totalSize →
      t.reshape ns = .ok { t with shape := ns } ∧
      ∀ t', t.reshape ns = .ok t' →
        t'.cpu_data = t.cpu_data ∧ ∀ k < t.totalSize, t'.atIdx k = t.atIdx k) ∧
    (ns.prod ≠ t.totalSize → t.reshape ns = .error .invalidArgument) := by
  constructor
  · intro hprod
    constructor
    · simp [Tensor.reshape, hprod]
    · intro t' ht'
      simp only [Tensor.reshape] at ht'
      split at ht'
      · cases ht'
      · cases ht'
        simp [Tensor.atIdx]
  · intro hprod
    simp [Tensor.reshape, hprod]

/-- Witness for C4 at a concrete input: reshaping a `2×3` tensor to
`3×2` succeeds, keeps the flat data, and a mismatched shape fails. -/
theorem c4_witness :
    ((2 : Nat) * 3 = 6 ∧
      (Tensor.mk [2, 3] 6 [1, 2, 3, 4, 5, 6]).reshape [3, 2] =
        .ok (Tensor.mk [3, 2] 6 [1, 2, 3, 4, 5, 6]) ∧
      (Tensor.mk [2, 3] 6 [1, 2, 3, 4, 5, 6]).reshape [4, 2] = .error .invalidArgument) := by
  have h := c4_reshape_product_and_data_preserved (Tensor.mk [2, 3] 6 [1, 2, 3, 4, 5, 6]) [3, 2]
  have h2 := c4_reshape_product_and_data_preserved (Tensor.mk [2, 3] 6 [1, 2, 3, 4, 5, 6]) [4, 2]
  exact ⟨by decide, (h.1 (by decide)).1, h2.2 (by decide)⟩

/-! ## C5 — the `element_count` invariant (corrected) -/

/-- Counterexample to C5 as stated: `reshape` never recomputes
`totalSize`, so reshaping a one-element tensor to the empty shape
(which succeeds, since the empty product is 1) leaves
`element_count = 1` on an empty-shape tensor, where the claim demands
0. -/
theorem c5_counterexample :
    (Tensor.ofShape [1]).reshape [] = .ok (Tensor.mk [] 1 [0]) ∧
    (Tensor.mk [] 1 [0]).shape = [] ∧ (Tensor.mk [] 1 [0]).totalSize ≠ 0 :=
  ⟨rfl, rfl, by decide⟩

/-- C5 amended: after construction `element_count` is
`calculateSize shape` (0 for the empty shape, the dimension product
otherwise); copy preserves shape and count; a moved-from tensor is
empty with count 0; and after a successful `reshape` the count equals
the plain product of the new shape — which satisfies the original
0-for-empty rule for every non-empty new shape, but stays 1 when a
one-element tensor is reshaped to the empty shape. -/
theorem c5_element_count_invariant_amended :
    (∀ shape : List Nat, (Tensor.ofShape shape).totalSize =
      (if shape = [] then 0 else shape.prod)) ∧
    (Tensor.empty.totalSize = 0 ∧ Tensor.empty.shape = []) ∧
    (∀ t : Tensor, (t.copy).totalSize = t.totalSize ∧ (t.copy).shape = t.shape) ∧
    (∀ t : Tensor, (t.moveFrom).1 = t.copy ∧
      (t.moveFrom).2.totalSize = 0 ∧ (t.moveFrom).2.shape = []) ∧
    (∀ (t : Tensor) (ns : List Nat) (t' : Tensor), t.reshape ns = .ok t' →
      t'.shape = ns ∧ t'.totalSize = ns.prod ∧ t'.cpu_data = t.cpu_data ∧
      (ns ≠ [] → t'.totalSize = (if t'.shape = [] then 0 else t'.shape.prod))) := by
  refine ⟨?_, ⟨rfl, rfl⟩, fun t => ⟨rfl, rfl⟩, fun t => ⟨rfl, rfl, rfl⟩, ?_⟩
  · intro shape
    simp only [Tensor.ofShape, Tensor.calculateSize, List.isEmpty_iff]
  · intro t ns t' ht'
    simp only [Tensor.reshape] at ht'
    by_cases h : ns.prod = t.totalSize
    · rw [if_neg (by simpa using h)] at ht'
      cases ht'
      refine ⟨rfl, h.symm, rfl, fun hns => ?_⟩
      simp [hns, h.symm]
    · rw [if_pos (by simpa using h)] at ht'
      cases ht'

/-- Witness for C5 (amended) at a concrete input: the invariant holds
through construction and a concrete reshape of a `2×3` tensor. -/
theorem c5_witness :
    (Tensor.ofShape [2, 3]).totalSize = (if ([2, 3] : List Nat) = [] then 0 else [2, 3].prod) ∧
    ∀ t', (Tensor.ofShape [2, 3]).reshape [6] = .ok t' →
      t'.totalSize = [(6 : Nat)].prod := by
  refine ⟨c5_element_count_invariant_amended.1 [2, 3], fun t' h => ?_⟩
  exact (c5_element_count_invariant_amended.2.2.2.2 _ _ _ h).2.1

/-! ## C6 — transpose is rank-2 only, swaps entries, and is an
involution -/

lemma transpose_involution_aux (A : Tensor) (hlen : A.shape.length = 2)
    (hts : A.totalSize = A.getRows * A.getCols)
    (hdat : A.cpu_data.length = A.totalSize) :
    (Tensor.mk [A.getCols, A.getRows] (A.getCols * A.getRows)
      ((List.range (A.getCols * A.getRows)).map
        (fun k => A.atIdx ((k % A.getRows) * A.getCols + (k / A.getRows))))).transpose =
      .ok A := by
  obtain ⟨a, b, hab⟩ := List.length_eq_two.mp hlen
  have hra : A.getRows = a := by simp [Tensor.getRows, hab]
  have hcb : A.getCols = b := by simp [Tensor.getCols, hab]
  rw [Tensor.transpose, if_neg (by simp)]
  have hgr : (Tensor.mk [A.getCols, A.getRows] (A.getCols * A.getRows)
      ((List.range (A.getCols * A.getRows)).map
        (fun k => A.atIdx ((k % A.getRows) * A.getCols + (k / A.getRows))))).getRows =
      A.getCols := by simp [Tensor.getRows]
  have hgc : (Tensor.mk [A.getCols, A.getRows] (A.getCols * A.getRows)
      ((List.range (A.getCols * A.getRows)).map
        (fun k => A.atIdx ((k % A.getRows) * A.getCols + (k / A.getRows))))).getCols =
      A.getRows := by simp [Tensor.getCols]
  rw [hgr, hgc]
  congr 1
  have hA : A = Tensor.mk A.shape A.totalSize A.cpu_data := rfl
  conv_rhs => rw [hA]
  have hdata : (List.range (A.getRows * A.getCols)).map
      (fun k => (Tensor.mk [A.getCols, A.getRows] (A.getCols * A.getRows)
        ((List.range (A.getCols * A.getRows)).map
          (fun m => A.atIdx ((m % A.getRows) * A.getCols + (m / A.getRows))))).atIdx
        ((k % A.getCols) * A.getRows + (k / A.getCols))) = A.cpu_data := by
    apply List.ext_getElem
    · simp [hdat, hts]
    · intro k h1 h2
      simp only [List.getElem_map, List.getElem_range]
      have hk : k < A.getRows * A.getCols := by simpa using h1
      have hc0 : 0 < A.getCols := by
        rcases Nat.eq_zero_or_pos A.getCols with h0 | h0
        · rw [h0, Nat.mul_zero] at hk; omega
        · exact h0
      have hkd : k / A.getCols < A.getRows :=
        Nat.div_lt_of_lt_mul (by rw [Nat.mul_comm]; exact hk)
      have hkm : k % A.getCols < A.getCols := Nat.mod_lt k hc0
      have hm : (k % A.getCols) * A.getRows + k / A.getCols < A.getCols * A.getRows := by
        have h3 : (k % A.getCols) * A.getRows + k / A.getCols <
            (k % A.getCols + 1) * A.getRows := by rw [Nat.succ_mul]; omega
        exact h3.trans_le (Nat.mul_le_mul_right A.getRows (by omega))
      rw [atIdx_map_range _ _ _ hm, mul_add_mod_lt _ _ _ hkd, mul_add_div_lt _ _ _ hkd]
      have hk2 : (k / A.getCols) * A.getCols + k % A.getCols = k := by
        rw [Nat.mul_comm]; exact Nat.div_add_mod k A.getCols
      rw [hk2, Tensor.atIdx, List.getD_eq_getElem _ _ (by omega)]
  have hshape : [A.getRows, A.getCols] = A.shape := by rw [hra, hcb, hab]
  rw [hdata, hts, hshape]

lemma transpose_eq_of_rank2 (t : Tensor) (h : t.shape.length = 2) :
    t.transpose = .ok (Tensor.mk [t.getCols, t.getRows] (t.getCols * t.getRows)
      ((List.range (t.getCols * t.getRows)).map
        (fun k => t.atIdx ((k % t.getRows) * t.getCols + (k / t.getRows))))) := by
  simp [Tensor.transpose, h]

lemma transpose_get_swap (t B : Tensor) (hB : t.transpose = .ok B)
    (i j : Nat) (hi : i < t.getRows) (hj : j < t.getCols) :
    B.get j i = t.get i j := by
  have hlen : t.shape.length = 2 := by
    by_contra h
    simp [Tensor.transpose, h] at hB
  rw [transpose_eq_of_rank2 t hlen] at hB
  have hBeq := (Except.ok.inj hB).symm
  subst hBeq
  have hjr : j * t.getRows + i < t.getCols * t.getRows := by
    have h1 : j * t.getRows + i < (j + 1) * t.getRows := by rw [Nat.succ_mul]; omega
    exact h1.trans_le (Nat.mul_le_mul_right t.getRows (by omega))
  have hBrows : (Tensor.mk [t.getCols, t.getRows] (t.getCols * t.getRows)
      ((List.range (t.getCols * t.getRows)).map
        (fun k => t.atIdx ((k % t.getRows) * t.getCols + (k / t.getRows))))).getRows =
      t.getCols := by simp [Tensor.getRows]
  have hBcols : (Tensor.mk [t.getCols, t.getRows] (t.getCols * t.getRows)
      ((List.range (t.getCols * t.getRows)).map
        (fun k => t.atIdx ((k % t.getRows) * t.getCols + (k / t.getRows))))).getCols =
      t.getRows := by simp [Tensor.getCols]
  rw [Tensor.get, Tensor.get, hBrows, hBcols, if_neg (by omega), if_neg (by omega)]
  rw [atIdx_map_range _ _ _ hjr, mul_add_mod_lt _ _ _ hi, mul_add_div_lt _ _ _ hi]

/-- C6: `transpose` succeeds exactly on rank-2 tensors (failing with
`std::invalid_argument` otherwise); on a well-formed rank-2 tensor it
swaps the row/column extents, its element `(j, i)` is the source
element `(i, j)`, and transposing twice returns the original tensor. -/
theorem c6_transpose_rank2_swap_involution (A : Tensor) :
    ((∃ B, A.transpose = .ok B) ↔ A.shape.length = 2) ∧
    (A.shape.length ≠ 2 → A.transpose = .error .invalidArgument) ∧
    (A.WF2 → ∃ B, A.transpose = .ok B ∧
      B.getRows = A.getCols ∧ B.getCols = A.getRows ∧
      (∀ i j, i < A.getRows → j < A.getCols → B.get j i = A.get i j) ∧
      B.transpose = .ok A) := by
  refine ⟨?_, ?_, ?_⟩
  · constructor
    · rintro ⟨B, hB⟩
      by_contra hlen
      simp [Tensor.transpose, hlen] at hB
    · intro hlen
      exact ⟨_, transpose_eq_of_rank2 A hlen⟩
  · intro hlen
    simp [Tensor.transpose, hlen]
  · rintro ⟨hlen, hts, hdat⟩
    exact ⟨_, transpose_eq_of_rank2 A hlen, by simp [Tensor.getRows], by simp [Tensor.getCols],
      fun i j hi hj => transpose_get_swap A _ (transpose_eq_of_rank2 A hlen) i j hi hj,
      transpose_involution_aux A hlen hts hdat⟩

/-- Witness for C6 at a concrete input: a `2×3` tensor transposes to
`3×2` and transposing twice gives back the original. -/
theorem c6_witness :
    (Tensor.mk [2, 3] 6 [1, 2, 3, 4, 5, 6]).WF2 ∧
    ∃ B, (Tensor.mk [2, 3] 6 [1, 2, 3, 4, 5, 6]).transpose = .ok B ∧
      B.transpose = .ok (Tensor.mk [2, 3] 6 [1, 2, 3, 4, 5, 6]) := by
  have hwf : (Tensor.mk [2, 3] 6 [1, 2, 3, 4, 5, 6]).WF2 := ⟨rfl, rfl, rfl⟩
  obtain ⟨B, hB, -, -, -, hBB⟩ :=
    (c6_transpose_rank2_swap_involution (Tensor.mk [2, 3] 6 [1, 2, 3, 4, 5, 6])).2.2 hwf
  exact ⟨hwf, B, hB, hBB⟩

/-! ## C7 — MeanSquaredError fails exactly on shape mismatch -/

/-- C7: `MeanSquaredError::forward` and `::backward` both throw
exactly when the prediction and label shapes differ; on equal shapes
`forward` returns `mean((pred - true)^2)` over all elements and
`backward` returns the tensor with entries `2 * (pred - true) / N`,
`N` the total element count. -/
theorem c7_mse_shape_mismatch_fails (p t : Tensor) :
    (p.getShape ≠ t.getShape →
      MeanSquaredError.forward p t = .error .invalidArgument ∧
      MeanSquaredError.backward p t = .error .invalidArgument) ∧
    (p.getShape = t.getShape →
      MeanSquaredError.forward p t =
        .ok ((∑ i ∈ Finset.range p.getSize, (p.atIdx i - t.atIdx i) ^ 2) /
          (p.getSize : ℚ)) ∧
      ∃ g, MeanSquaredError.backward p t = .ok g ∧ g.getShape = p.getShape ∧
        ∀ k < p.getSize, g.atIdx k = 2 * (p.atIdx k - t.atIdx k) / (p.getSize : ℚ)) := by
  constructor
  · intro hsh
    exact ⟨by simp [MeanSquaredError.forward, hsh], by simp [MeanSquaredError.backward, hsh]⟩
  · intro hsh
    constructor
    · rw [MeanSquaredError.forward, if_neg (by simpa using hsh)]
      congr 1
      rw [sum_map_range]
      exact congrArg₂ _ (Finset.sum_congr rfl (fun i _ => (sq _).symm)) rfl
    · refine ⟨Tensor.mk p.shape (Tensor.calculateSize p.shape)
        ((List.range p.getSize).map
          (fun i => 2 * (p.atIdx i - t.atIdx i) / (p.getSize : ℚ))), ?_, rfl, ?_⟩
      · rw [MeanSquaredError.backward, if_neg (by simpa using hsh)]
      · intro k hk
        exact atIdx_map_range _ _ _ hk

/-- Witness for C7 at concrete inputs: equal shapes give the mean
squared error `5/2` for `pred = [[1, 2]]`, `true = [[0, 0]]`, and a
shape mismatch fails both directions. -/
theorem c7_witness :
    MeanSquaredError.forward (Tensor.mk [1, 2] 2 [1, 2]) (Tensor.mk [1, 2] 2 [0, 0]) =
      .ok ((∑ i ∈ Finset.range 2,
        ((Tensor.mk [1, 2] 2 [1, 2]).atIdx i - (Tensor.mk [1, 2] 2 [0, 0]).atIdx i) ^ 2) /
          (2 : ℚ)) ∧
    MeanSquaredError.forward (Tensor.mk [1, 2] 2 [1, 2]) (Tensor.mk [2, 1] 2 [0, 0]) =
      .error .invalidArgument := by
  refine ⟨((c7_mse_shape_mismatch_fails _ _).2 (by decide)).1, ?_⟩
  exact ((c7_mse_shape_mismatch_fails _ _).1 (by decide)).1

/-! ## C8 — CrossEntropy forward on the two supported label
encodings -/

lemma truncToInt_natCast (n : ℕ) : truncToInt ((n : ℚ)) = (n : ℤ) := by
  rw [truncToInt, if_pos (by positivity)]
  exact Int.floor_natCast n

/-- C8: on a one-hot label (class function `c`, a single 1 per row)
and on a class-index label (single column storing the integer class),
`CrossEntropyLoss::forward` returns
`-(Σ_rows log (max pred_true_class ε)) / rows` with `ε = 1e-9` — the
negated mean over rows of the clamped log of the probability predicted
at each row's true class. -/
theorem c8_crossentropy_forward_true_class (clog : ℚ → ℚ) (p t : Tensor) (c : Nat → Nat) :
    (p.getShape = t.getShape →
      (∀ i < p.getRows, c i < p.getCols) →
      (∀ i < p.getRows, ∀ j < p.getCols,
        t.atIdx (i * t.getCols + j) = if j = c i then 1 else 0) →
      CrossEntropyLoss.forward clog p t =
        .ok (-(∑ i ∈ Finset.range p.getRows,
          clog (max (p.atIdx (i * p.getCols + c i)) ceEps)) / (p.getRows : ℚ))) ∧
    (p.getShape ≠ t.getShape → t.getCols = 1 → p.getRows = t.getRows →
      (∀ i < p.getRows, t.atIdx i = ((c i : ℕ) : ℚ) ∧ c i < p.getCols) →
      CrossEntropyLoss.forward clog p t =
        .ok (-(∑ i ∈ Finset.range p.getRows,
          clog (max (p.atIdx (i * p.getCols + c i)) ceEps)) / (p.getRows : ℚ))) := by
  constructor
  · intro hsh hclt honehot
    have hrows : p.getRows = t.getRows := by
      rw [Tensor.getRows, Tensor.getRows, show p.shape = t.shape from hsh]
    have hsum : ((List.range p.getRows).map (fun i =>
        ((List.range p.getCols).map (fun j =>
          if t.atIdx (i * t.getCols + j) > 0 then
            clog (max (p.atIdx (i * p.getCols + j)) ceEps)
          else 0)).sum)).sum =
        ∑ i ∈ Finset.range p.getRows,
          clog (max (p.atIdx (i * p.getCols + c i)) ceEps) := by
      rw [sum_map_range]
      refine Finset.sum_congr rfl (fun i hi => ?_)
      have hi' : i < p.getRows := Finset.mem_range.mp hi
      rw [sum_map_range]
      have hstep : ∀ j ∈ Finset.range p.getCols,
          (if t.atIdx (i * t.getCols + j) > 0 then
            clog (max (p.atIdx (i * p.getCols + j)) ceEps) else 0) =
          (if j = c i then clog (max (p.atIdx (i * p.getCols + j)) ceEps) else 0) := by
        intro j hj
        rw [honehot i hi' j (Finset.mem_range.mp hj)]
        by_cases hjc : j = c i
        · simp [hjc]
        · simp [hjc]
      rw [Finset.sum_congr rfl hstep,
        Finset.sum_ite_eq' (Finset.range p.getCols) (c i)
          (fun j => clog (max (p.atIdx (i * p.getCols + j)) ceEps)),
        if_pos (Finset.mem_range.mpr (hclt i hi'))]
    rw [CrossEntropyLoss.forward, if_neg (by omega), if_pos hsh, hsum]
  · intro hne hcols hrows hlab
    have hsum : ((List.range p.getRows).map (fun i =>
        let class_idx := truncToInt (t.atIdx i)
        if 0 ≤ class_idx ∧ class_idx < (p.getCols : Int) then
          clog (max (p.atIdx (i * p.getCols + class_idx.toNat)) ceEps)
        else 0)).sum =
        ∑ i ∈ Finset.range p.getRows,
          clog (max (p.atIdx (i * p.getCols + c i)) ceEps) := by
      rw [sum_map_range]
      refine Finset.sum_congr rfl (fun i hi => ?_)
      have hi' : i < p.getRows := Finset.mem_range.mp hi
      obtain ⟨hval, hlt⟩ := hlab i hi'
      simp only [hval, truncToInt_natCast]
      rw [if_pos ⟨Int.natCast_nonneg (c i), by exact_mod_cast hlt⟩, Int.toNat_natCast]
    rw [CrossEntropyLoss.forward, if_neg (by omega), if_neg hne, if_pos hcols, hsum]

/-- Witness for C8, the concrete scenario from the spec:
`forward(pred = [[0.7, 0.3]], true = [[1, 0]])` is
`-log(max(0.7, 1e-9)) = -log(0.7)`; instantiated with the identity in
place of `std::log`, the value is `-(7/10)`. -/
theorem c8_witness :
    CrossEntropyLoss.forward (fun q => q)
      (Tensor.mk [1, 2] 2 [7/10, 3/10]) (Tensor.mk [1, 2] 2 [1, 0]) = .ok (-(7/10)) := by
  have h := (c8_crossentropy_forward_true_class (fun q => q)
    (Tensor.mk [1, 2] 2 [7/10, 3/10]) (Tensor.mk [1, 2] 2 [1, 0]) (fun _ => 0)).1
    (by decide) (by decide) (by decide)
  rw [h]
  norm_num [Tensor.atIdx, ceEps, Tensor.getRows, Tensor.getCols]

/-! ## C10 — out-of-range class indices are silently skipped -/

lemma idx_lt_mul {i j r c : ℕ} (hi : i < r) (hj : j < c) : i * c + j < r * c := by
  have h1 : i * c + j < (i + 1) * c := by rw [Nat.succ_mul]; omega
  exact h1.trans_le (Nat.mul_le_mul_right c (by omega))

/-- C10: for class-index labels, a row whose truncated class index is
negative or at least the number of prediction columns raises no error:
`CrossEntropyLoss::forward` contributes no loss term for that row (its
term in the accumulated sum is 0), and `::backward` leaves every entry
of that row at `pred / num_rows`, never subtracting `1 / num_rows`. -/
theorem c10_class_index_out_of_range_skipped (clog : ℚ → ℚ) (p t : Tensor) (i : Nat)
    (hne : p.getShape ≠ t.getShape) (hcols : t.getCols = 1)
    (hrows : p.getRows = t.getRows) (hi : i < p.getRows)
    (hoor : truncToInt (t.atIdx i) < 0 ∨ (p.getCols : Int) ≤ truncToInt (t.atIdx i)) :
    (CrossEntropyLoss.forward clog p t =
      .ok (-(∑ i' ∈ Finset.range p.getRows,
        if i' = i then 0 else
          (if 0 ≤ truncToInt (t.atIdx i') ∧ truncToInt (t.atIdx i') < (p.getCols : Int) then
            clog (max (p.atIdx (i' * p.getCols + (truncToInt (t.atIdx i')).toNat)) ceEps)
          else 0)) / (p.getRows : ℚ))) ∧
    (∃ g, CrossEntropyLoss.backward p t = .ok g ∧
      ∀ j < p.getCols, g.atIdx (i * p.getCols + j) =
        p.atIdx (i * p.getCols + j) / (p.getRows : ℚ)) := by
  constructor
  · have hsum : ((List.range p.getRows).map (fun i' =>
        let class_idx := truncToInt (t.atIdx i')
        if 0 ≤ class_idx ∧ class_idx < (p.getCols : Int) then
          clog (max (p.atIdx (i' * p.getCols + class_idx.toNat)) ceEps)
        else 0)).sum =
        ∑ i' ∈ Finset.range p.getRows,
          if i' = i then 0 else
            (if 0 ≤ truncToInt (t.atIdx i') ∧
                truncToInt (t.atIdx i') < (p.getCols : Int) then
              clog (max (p.atIdx (i' * p.getCols + (truncToInt (t.atIdx i')).toNat)) ceEps)
            else 0) := by
      rw [sum_map_range]
      refine Finset.sum_congr rfl (fun i' _ => ?_)
      by_cases hii : i' = i
      · subst hii
        rw [if_pos rfl, if_neg (by omega)]
      · rw [if_neg hii]
    rw [CrossEntropyLoss.forward, if_neg (by omega), if_neg hne, if_pos hcols, hsum]
  · refine ⟨Tensor.mk p.shape (Tensor.calculateSize p.shape)
      ((List.range (p.getRows * p.getCols)).map (fun k =>
        let class_idx := truncToInt (t.atIdx (k / p.getCols))
        if 0 ≤ class_idx ∧ class_idx < (p.getCols : Int) ∧
            class_idx.toNat = k % p.getCols then
          (p.atIdx k - 1) / (p.getRows : ℚ)
        else p.atIdx k / (p.getRows : ℚ))), ?_, ?_⟩
    · rw [CrossEntropyLoss.backward, if_neg hne, if_pos hcols]
    · intro j hj
      rw [atIdx_map_range _ _ _ (idx_lt_mul hi hj)]
      simp only [mul_add_div_lt _ _ _ hj, mul_add_mod_lt _ _ _ hj]
      rw [if_neg (by omega)]

/-- Witness for C10 at a concrete input: prediction `[[1/2, 1/2]]`
with the class-index label `[[5]]` (5 ≥ 2 columns) produces loss 0 and
the gradient entry `pred / rows` at the first column of the skipped
row. -/
theorem c10_witness :
    ∃ g, CrossEntropyLoss.forward (fun q => q)
        (Tensor.mk [1, 2] 2 [1/2, 1/2]) (Tensor.mk [1, 1] 1 [5]) = .ok 0 ∧
      CrossEntropyLoss.backward
        (Tensor.mk [1, 2] 2 [1/2, 1/2]) (Tensor.mk [1, 1] 1 [5]) = .ok g ∧
      g.atIdx 0 = (1/2 : ℚ) := by
  obtain ⟨hfwd, g, hg, hrow⟩ := c10_class_index_out_of_range_skipped (fun q => q)
    (Tensor.mk [1, 2] 2 [1/2, 1/2]) (Tensor.mk [1, 1] 1 [5]) 0
    (by decide) (by decide) (by decide) (by decide) (by decide)
  refine ⟨g, ?_, hg, ?_⟩
  · rw [hfwd]
    norm_num [Tensor.getRows, Tensor.getCols, Finset.sum_range_one]
  · have h0 := hrow 0 (by decide)
    norm_num [Tensor.getRows, Tensor.getCols, Tensor.atIdx] at h0
    simpa [Tensor.atIdx] using h0

/-! ## C9 — evaluate on a label in neither encoding -/

/-- C9: when the label tensor is in neither supported encoding (its
shape differs from the prediction's and it has more than one column),
the accuracy block of `Model::evaluate` raises no error: it counts
zero correct predictions, and — whenever the loss collaborator
produced a value — `evaluate` returns that loss with accuracy 0. -/
theorem c9_evaluate_unknown_encoding_accuracy_zero (forwardF : Tensor → Tensor)
    (lossF : Tensor → Tensor → Except TError ℚ) (X y : Tensor) (l : ℚ)
    (hsh : y.getShape ≠ (forwardF X).getShape) (hc : 1 < y.getCols)
    (hrows : 0 < X.getRows) (hl : lossF (forwardF X) y = .ok l) :
    countCorrect (forwardF X) y = .ok 0 ∧
    Model.evaluate forwardF lossF X y = .ok (l, 0) := by
  have hcc : countCorrect (forwardF X) y = .ok 0 := by
    rw [countCorrect, if_neg hsh, if_neg (by omega)]
  refine ⟨hcc, ?_⟩
  rw [Model.evaluate]
  simp [hl, hcc]
  rfl

/-- Witness for C9 at a concrete input: a `1×2` label against a `1×1`
prediction (neither one-hot nor class-index) yields the collaborator's
loss with accuracy 0. -/
theorem c9_witness :
    Model.evaluate id (fun _ _ => .ok 7) (Tensor.mk [1, 1] 1 [0])
      (Tensor.mk [1, 2] 2 [0, 0]) = .ok (7, 0) :=
  (c9_evaluate_unknown_encoding_accuracy_zero id (fun _ _ => .ok 7)
    (Tensor.mk [1, 1] 1 [0]) (Tensor.mk [1, 2] 2 [0, 0]) 7
    (by decide) (by decide) (by decide) rfl).2

/-! ## C3 — the Softmax Jacobian path (code bug)

With a cached softmax output of 2 columns, the `try` block of the
Jacobian path always throws: `jacobian` has shape `{n, n}` while the
gradient row has shape `{1, n}`, and `Tensor::multiply` — despite the
source comment `Compute gradient: J * g` — is the element-wise product
requiring identical shapes.  Every row is therefore passed through
unchanged instead of receiving the Jacobian product. -/

/-- C3 evaluated at the failing input: cached output `[[1/2, 1/2]]`
and incoming gradient `[[1, 0], [0, 0]]` (shapes differ, so the
Jacobian path runs).  `backward` passes row 0 through as `[1, 0]`;
inside the row, `diag(s) - outer(s, s)` is the Jacobian
`[[1/4, -1/4], [-1/4, 1/4]]`, whose product with the row gradient
`[1, 0]` would start with `1/4`, but `multiply` raises the shape error
`std::invalid_argument`, so the returned entry stays `1`. -/
theorem c3_softmax_jacobian_never_computed :
    Softmax.backward (Tensor.mk [1, 2] 2 [1/2, 1/2]) (Tensor.mk [2, 2] 4 [1, 0, 0, 0]) =
      .ok (Tensor.mk [2, 2] 4 [1, 0, 0, 0]) ∧
    ((Tensor.diag (Tensor.mk [1, 2] 2 [1/2, 1/2])).bind (fun d =>
      (Tensor.outer (Tensor.mk [1, 2] 2 [1/2, 1/2]) (Tensor.mk [1, 2] 2 [1/2, 1/2])).bind
        (fun o => d.sub o))) =
      .ok (Tensor.mk [2, 2] 4 [1/4, -1/4, -1/4, 1/4]) ∧
    ((Tensor.mk [2, 2] 4 [1/4, -1/4, -1/4, 1/4]).multiply (Tensor.mk [1, 2] 2 [1, 0])) =
      .error .invalidArgument ∧
    CpuOps.matmul (Tensor.mk [2, 2] 4 [1/4, -1/4, -1/4, 1/4]) (Tensor.mk [2, 1] 2 [1, 0])
      (Tensor.ofShape [2, 1]) = .ok (Tensor.mk [2, 1] 2 [1/4, -1/4]) ∧
    (Tensor.mk [2, 2] 4 [1, 0, 0, 0]).atIdx 0 ≠ (1/4 : ℚ) := by
  refine ⟨?_, ?_, ?_, ?_, ?_⟩
  · norm_num [Softmax.backward, Softmax.backwardRow, Softmax.copyRow, Softmax.passRow,
      Tensor.getRow, Tensor.diag, Tensor.outer, Tensor.sub, Tensor.multiply, Tensor.get,
      Tensor.set, Tensor.ofShape, Tensor.atIdx, Tensor.getRows, Tensor.getCols,
      Tensor.getSize, Tensor.getShape, Tensor.calculateSize, List.range_succ,
      List.replicate, except_ok_bind, except_error_bind]
  · norm_num [Tensor.diag, Tensor.outer, Tensor.sub, Tensor.atIdx, Tensor.getRows,
      Tensor.getCols, Tensor.getSize, Tensor.calculateSize, List.range_succ, Except.bind]
  · norm_num [Tensor.multiply]
  · norm_num [CpuOps.matmul, Tensor.atIdx, Tensor.getRows, Tensor.getCols, Tensor.ofShape,
      Tensor.calculateSize, List.range_succ]
  · norm_num [Tensor.atIdx]

/-! ## C1 — Adam keeps independent per-parameter moment state -/

/-- C1: `Adam::update` keyed at parameter identity `k1` (the C++ map
key is the parameter's address) never writes any other key's entry;
its result — the updated weights and the `k1` moment record — depends
only on the `k1` entry of the state map, never reading another
parameter's buffers or counter; the moment state is created lazily on
the first update (zero-filled buffers of the parameter's shape, and
the step counter reaches 1 on that call); and the step counter always
continues from the entry stored for that key, so the entry persists
across updates. -/
theorem c1_adam_per_parameter_state (sqrtF : ℚ → ℚ) (cfg : AdamCfg)
    (st : Nat → AdamMoments) (k1 k2 : Nat) (w g : Tensor) (hne : k1 ≠ k2) :
    ((Adam.update sqrtF cfg st k1 w g).2 k2 = st k2) ∧
    (∀ st2 : Nat → AdamMoments, st2 k1 = st k1 →
      (Adam.update sqrtF cfg st2 k1 w g).1 = (Adam.update sqrtF cfg st k1 w g).1 ∧
      (Adam.update sqrtF cfg st2 k1 w g).2 k1 = (Adam.update sqrtF cfg st k1 w g).2 k1) ∧
    ((st k1).m.getSize = 0 →
      ((Adam.update sqrtF cfg st k1 w g).2 k1).t = 1 ∧
      ((Adam.update sqrtF cfg st k1 w g).2 k1).m.shape = w.getShape ∧
      ((Adam.update sqrtF cfg st k1 w g).2 k1).v.shape = w.getShape) ∧
    (((Adam.update sqrtF cfg st k1 w g).2 k1).t =
      (if (st k1).m.getSize = 0 then 0 else (st k1).t) + 1) := by
  refine ⟨?_, ?_, ?_, ?_⟩
  · simp only [Adam.update]
    rw [if_neg (Ne.symm hne)]
  · intro st2 h12
    constructor
    · simp only [Adam.update, h12]
    · simp only [Adam.update, h12]
  · intro h0
    refine ⟨?_, ?_, ?_⟩ <;>
      simp [Adam.update, h0, Tensor.ofShape, Tensor.getShape]
  · by_cases h0 : (st k1).m.getSize = 0
    · simp [Adam.update, h0]
    · simp [Adam.update, h0]

/-- Witness for C1 at concrete inputs: a first update at key 0 leaves
key 1's (empty) entry untouched and sets key 0's counter to 1. -/
theorem c1_witness :
    (0 : Nat) ≠ 1 ∧
    ((fun _ : Nat => ({} : AdamMoments)) 0).m.getSize = 0 ∧
    (Adam.update id ⟨1, 1, 1, 1⟩ (fun _ => {}) 0
      (Tensor.mk [1, 1] 1 [1]) (Tensor.mk [1, 1] 1 [1])).2 1 = {} ∧
    ((Adam.update id ⟨1, 1, 1, 1⟩ (fun _ => {}) 0
      (Tensor.mk [1, 1] 1 [1]) (Tensor.mk [1, 1] 1 [1])).2 0).t = 1 := by
  have h := c1_adam_per_parameter_state id ⟨1, 1, 1, 1⟩ (fun _ => {}) 0 1
    (Tensor.mk [1, 1] 1 [1]) (Tensor.mk [1, 1] 1 [1]) (by decide)
  exact ⟨by decide, rfl, h.1, (h.2.2.1 rfl).1⟩

/-! ## C2 — the GPU fallback is per-layer, not model-wide
(corrected) -/

lemma cpuMatmul_ok (a b c : Tensor) (h1 : a.getCols = b.getRows)
    (h2 : c.getRows = a.getRows) (h3 : c.getCols = b.getCols) :
    ∃ d, CpuOps.matmul a b c = .ok d ∧ d.shape = c.shape := by
  rw [CpuOps.matmul, if_neg (by omega), if_neg (by omega)]
  exact ⟨_, rfl, rfl⟩

lemma addBias_ok (output biases : Tensor) (hbr : biases.getRows ≠ 0)
    (hbc : output.getCols ≤ biases.getCols) :
    ∃ o, addBias output biases = .ok o := by
  rw [addBias]
  rw [if_neg (by
    rintro ⟨-, -, h3 | h3⟩
    · exact hbr h3
    · omega)]
  exact ⟨_, rfl⟩

lemma denseAffine_ok (input w biases : Tensor) (hdim : input.getCols = w.getRows)
    (hbr : biases.getRows ≠ 0) (hbc : w.getCols ≤ biases.getCols) :
    ∃ out, denseAffine input w biases = .ok out := by
  obtain ⟨d, hd, hdsh⟩ := cpuMatmul_ok input w (Tensor.ofShape [input.getRows, w.getCols])
    hdim (by simp [Tensor.ofShape, Tensor.getRows])
    (by simp [Tensor.ofShape, Tensor.getCols])
  have hdc : d.getCols = w.getCols := by
    rw [Tensor.getCols, hdsh]
    simp [Tensor.ofShape]
  obtain ⟨o, ho⟩ := addBias_ok d biases hbr (by omega)
  refine ⟨o, ?_⟩
  simp only [denseAffine, hd, except_ok_bind]
  exact ho

lemma denseBiasGrad_ok (grad_biases grad_output : Tensor)
    (hbr : grad_biases.getRows ≠ 0)
    (hbc : grad_output.getCols ≤ grad_biases.getCols) :
    ∃ gb, denseBiasGrad grad_biases grad_output = .ok gb := by
  rw [denseBiasGrad]
  rw [if_neg (by
    rintro ⟨-, h3 | h3⟩
    · exact hbr h3
    · omega)]
  exact ⟨_, rfl⟩

lemma transpose_ok_extents {t B : Tensor} (h : t.transpose = .ok B) :
    B.getRows = t.getCols ∧ B.getCols = t.getRows := by
  have hlen : t.shape.length = 2 := by
    by_contra hh
    simp [Tensor.transpose, hh] at h
  rw [transpose_eq_of_rank2 t hlen] at h
  have hBeq := (Except.ok.inj h).symm
  subst hBeq
  exact ⟨by simp [Tensor.getRows], by simp [Tensor.getCols]⟩

lemma dense_forward_ok_backend {b : Bool} {L : DenseLayer} {x : Tensor}
    {L' : DenseLayer} {y : Tensor}
    (hb : ¬(L.backendType = Backend.GPU ∧ b = true))
    (h : Dense.forward b L x = .ok (L', y)) : L'.backendType = L.backendType := by
  simp only [Dense.forward, if_neg hb] at h
  cases haff : denseAffine x L.weights L.biases with
  | ok out =>
    rw [haff] at h
    simp only at h
    cases h
    rfl
  | error e =>
    rw [haff] at h
    simp only at h
    cases h

lemma forwardLayers_preserves_backend (fail : Nat → Bool) :
    ∀ (ls : List DenseLayer) (i0 : Nat) (x : Tensor)
      (ls' : List DenseLayer) (out : Tensor),
    forwardLayers fail i0 ls x = .ok (ls', out) →
    ∀ (j : Nat) (dflt : DenseLayer), fail (i0 + j) = false →
      (ls'.getD j dflt).backendType = (ls.getD j dflt).backendType := by
  intro ls
  induction ls with
  | nil =>
    intro i0 x ls' out h j dflt _
    simp only [forwardLayers] at h
    cases h
    rfl
  | cons L rest ih =>
    intro i0 x ls' out h j dflt hf
    simp only [forwardLayers] at h
    cases hL : Dense.forward (fail i0) L x with
    | error e => rw [hL] at h; cases h
    | ok p =>
      rw [hL] at h
      simp only [except_ok_bind] at h
      cases hR : forwardLayers fail (i0 + 1) rest p.2 with
      | error e => rw [hR] at h; cases h
      | ok q =>
        rw [hR] at h
        simp only [except_ok_bind] at h
        cases h
        cases j with
        | zero =>
          have hf0 : fail i0 = false := by simpa using hf
          rw [hf0] at hL
          have hb : ¬(L.backendType = Backend.GPU ∧ (false : Bool) = true) := by simp
          simp only [List.getD_cons_zero]
          exact dense_forward_ok_backend hb hL
        | succ j' =>
          simp only [List.getD_cons_succ]
          exact ih (i0 + 1) p.2 q.1 q.2 hR j' dflt
            (by rw [show i0 + 1 + j' = i0 + (j' + 1) by omega]; exact hf)

lemma modelD_forward_model_backend (m : ModelD) (fail : Nat → Bool) (x : Tensor)
    (r : ModelD × Tensor) (h : ModelD.forward fail m x = .ok r) :
    r.1.backendType = m.backendType := by
  simp only [ModelD.forward] at h
  cases hfl : forwardLayers fail 0 m.layers x with
  | error e => rw [hfl] at h; cases h
  | ok p =>
    rw [hfl] at h
    simp only [except_ok_bind] at h
    cases h
    rfl

/-- The concrete two-`Dense`-layer model for the C2 counterexample:
`1×1` identity weights and zero biases, all backends set to GPU via
`Model::setBackend`. -/
def cexLayer : DenseLayer where
  weights := Tensor.mk [1, 1] 1 [1]
  biases := Tensor.mk [1, 1] 1 [0]
  grad_weights := Tensor.mk [1, 1] 1 [0]
  grad_biases := Tensor.mk [1, 1] 1 [0]

/-- The C2 counterexample model: two Dense layers, backend GPU
everywhere. -/
def cexModel : ModelD := ModelD.setBackend ⟨[cexLayer, cexLayer], Backend.CPU⟩ Backend.GPU

/-- Counterexample to C2 as stated: running `Model::forward` on a
two-Dense-layer model in GPU mode where layer 0's GPU attempt raises
(and layer 1's succeeds) completes, flips only layer 0's own backend
flag to CPU, and leaves both layer 1's flag and the model's stored
backend selection at GPU — so the downgrade is not model-wide and
layer 1 will still attempt the accelerator path on its next call. -/
theorem c2_counterexample :
    cexModel.backendType = Backend.GPU ∧
    (cexModel.layers.getD 0 cexLayer).backendType = Backend.GPU ∧
    (cexModel.layers.getD 1 cexLayer).backendType = Backend.GPU ∧
    ModelD.forward (fun i => decide (i = 0)) cexModel (Tensor.mk [1, 1] 1 [1]) =
      .ok (⟨[
        { weights := Tensor.mk [1, 1] 1 [1], biases := Tensor.mk [1, 1] 1 [0],
          grad_weights := Tensor.mk [1, 1] 1 [0], grad_biases := Tensor.mk [1, 1] 1 [0],
          last_input := Tensor.mk [1, 1] 1 [1], last_output := Tensor.mk [1, 1] 1 [1],
          backendType := Backend.CPU },
        { weights := Tensor.mk [1, 1] 1 [1], biases := Tensor.mk [1, 1] 1 [0],
          grad_weights := Tensor.mk [1, 1] 1 [0], grad_biases := Tensor.mk [1, 1] 1 [0],
          last_input := Tensor.mk [1, 1] 1 [1], last_output := Tensor.mk [1, 1] 1 [1],
          backendType := Backend.GPU }], Backend.GPU⟩, Tensor.mk [1, 1] 1 [1]) := by
  refine ⟨rfl, rfl, rfl, ?_⟩
  norm_num [ModelD.forward, forwardLayers, Dense.forward, denseAffine, addBias,
    CpuOps.matmul, ModelD.setBackend, cexModel, cexLayer, Tensor.ofShape,
    Tensor.calculateSize, Tensor.atIdx, Tensor.getRows, Tensor.getCols, Tensor.getSize,
    List.range_succ, List.replicate, except_ok_bind, except_error_bind]

/-- C2 amended: when the GPU path of a `Dense` forward or backward
raises, the *failing layer's own* backend flag (not the model-wide
selection) is permanently set to CPU and the current call completes on
the CPU path and returns its result (conjuncts 1 and 2, for forward
and backward respectively); a layer whose flag is CPU behaves
identically whatever the GPU outcome would have been, for forward and
backward — the sticky part: it never attempts the accelerator again;
the model's stored backend selection is untouched by `Model::forward`;
and every layer whose GPU attempt did not fail keeps its backend
flag. -/
theorem c2_gpu_fallback_per_layer_amended (L : DenseLayer) (input : Tensor)
    (hgpu : L.backendType = Backend.GPU)
    (hdim : input.getCols = L.weights.getRows)
    (hbr : L.biases.getRows ≠ 0)
    (hbc : L.weights.getCols ≤ L.biases.getCols) :
    (∃ out, denseAffine input L.weights L.biases = .ok out ∧
      Dense.forward true L input =
        .ok ({ L with last_input := input, last_output := out,
                      backendType := Backend.CPU }, out)) ∧
    (∀ (K : DenseLayer) (grad_output : Tensor),
      K.backendType = Backend.GPU →
      K.last_input.shape.length = 2 →
      K.weights.shape.length = 2 →
      K.last_input.getRows = grad_output.getRows →
      K.grad_weights.getRows = K.last_input.getCols →
      K.grad_weights.getCols = grad_output.getCols →
      K.grad_biases.getRows ≠ 0 →
      grad_output.getCols ≤ K.grad_biases.getCols →
      grad_output.getCols = K.weights.getCols →
      ∃ last_input_T weights_T gw gb gi,
        K.last_input.transpose = .ok last_input_T ∧
        K.weights.transpose = .ok weights_T ∧
        denseBackwardCompute last_input_T weights_T grad_output
          K.grad_weights K.grad_biases
          (Tensor.ofShape [grad_output.getRows, weights_T.getCols]) = .ok (gw, gb, gi) ∧
        Dense.backward true K grad_output =
          .ok ({ K with backendType := Backend.CPU,
                        grad_weights := gw, grad_biases := gb }, gi)) ∧
    (∀ (K : DenseLayer) (b : Bool) (x : Tensor), K.backendType = Backend.CPU →
      Dense.forward b K x = Dense.forward false K x) ∧
    (∀ (K : DenseLayer) (b : Bool) (x : Tensor), K.backendType = Backend.CPU →
      Dense.backward b K x = Dense.backward false K x) ∧
    (∀ (m : ModelD) (fail : Nat → Bool) (x : Tensor) (r : ModelD × Tensor),
      ModelD.forward fail m x = .ok r → r.1.backendType = m.backendType) ∧
    (∀ (fail : Nat → Bool) (ls : List DenseLayer) (x : Tensor)
        (ls' : List DenseLayer) (out : Tensor),
      forwardLayers fail 0 ls x = .ok (ls', out) →
      ∀ (j : Nat) (dflt : DenseLayer), fail j = false →
        (ls'.getD j dflt).backendType = (ls.getD j dflt).backendType) := by
  refine ⟨?_, ?_, ?_, ?_, modelD_forward_model_backend, ?_⟩
  · -- the failing forward call: attempt errors, the catch recomputes on CPU
    obtain ⟨out, hout⟩ := denseAffine_ok input L.weights L.biases hdim hbr hbc
    refine ⟨out, hout, ?_⟩
    simp [Dense.forward, hgpu, hout]
  · -- the failing backward call: attempt errors, the catch recomputes on CPU
    intro K grad_output hgpu2 hli2 hw2 hrow hgwr hgwc hgbr hgbc hwc
    obtain ⟨liT, hlt⟩ : ∃ B, K.last_input.transpose = .ok B :=
      ⟨_, transpose_eq_of_rank2 _ hli2⟩
    obtain ⟨wT, hwt⟩ : ∃ B, K.weights.transpose = .ok B :=
      ⟨_, transpose_eq_of_rank2 _ hw2⟩
    obtain ⟨hliTr, hliTc⟩ := transpose_ok_extents hlt
    obtain ⟨hwTr, hwTc⟩ := transpose_ok_extents hwt
    obtain ⟨gw, hgw, -⟩ := cpuMatmul_ok liT grad_output K.grad_weights
      (by rw [hliTc, hrow]) (by rw [hgwr, hliTr]) hgwc
    obtain ⟨gb, hgb⟩ := denseBiasGrad_ok K.grad_biases grad_output hgbr hgbc
    obtain ⟨gi, hgi, -⟩ := cpuMatmul_ok grad_output wT
      (Tensor.ofShape [grad_output.getRows, wT.getCols])
      (by rw [hwc, hwTr]) (by simp [Tensor.ofShape, Tensor.getRows])
      (by simp [Tensor.ofShape, Tensor.getCols])
    have hcompute : denseBackwardCompute liT wT grad_output
        K.grad_weights K.grad_biases
        (Tensor.ofShape [grad_output.getRows, wT.getCols]) = .ok (gw, gb, gi) := by
      simp only [denseBackwardCompute, hgw, except_ok_bind, hgb, hgi]
      rfl
    refine ⟨liT, wT, gw, gb, gi, hlt, hwt, hcompute, ?_⟩
    simp [Dense.backward, hlt, hwt, except_ok_bind, hgpu2, hcompute]
  · intro K b x hcpu
    simp [Dense.forward, hcpu]
  · intro K b x hcpu
    simp [Dense.backward, hcpu]
  · intro fail ls x ls' out h j dflt hf
    exact forwardLayers_preserves_backend fail ls 0 x ls' out h j dflt (by simpa using hf)

/-- The single GPU-mode Dense layer used by the C2 witness. -/
def cexGpuLayer : DenseLayer := { cexLayer with backendType := Backend.GPU }

/-- The GPU-mode Dense layer, with a cached rank-2 forward input, used
by the backward part of the C2 witness. -/
def cexGpuLayerB : DenseLayer := { cexGpuLayer with last_input := Tensor.mk [1, 1] 1 [1] }

/-- Witness for C2 (amended) at concrete inputs: a GPU-mode `1×1`
Dense layer whose GPU attempt fails completes the forward — and, with
a cached forward input, the backward — on the CPU path with its
backend flag now CPU. -/
theorem c2_witness :
    (∃ out, denseAffine (Tensor.mk [1, 1] 1 [1])
        cexGpuLayer.weights cexGpuLayer.biases = .ok out ∧
      Dense.forward true cexGpuLayer (Tensor.mk [1, 1] 1 [1]) =
        .ok ({ cexGpuLayer with
          last_input := Tensor.mk [1, 1] 1 [1], last_output := out,
          backendType := Backend.CPU }, out)) ∧
    (∃ last_input_T weights_T gw gb gi,
      cexGpuLayerB.last_input.transpose = .ok last_input_T ∧
      cexGpuLayerB.weights.transpose = .ok weights_T ∧
      denseBackwardCompute last_input_T weights_T (Tensor.mk [1, 1] 1 [2])
        cexGpuLayerB.grad_weights cexGpuLayerB.grad_biases
        (Tensor.ofShape [(Tensor.mk [1, 1] 1 [2]).getRows, weights_T.getCols]) =
        .ok (gw, gb, gi) ∧
      Dense.backward true cexGpuLayerB (Tensor.mk [1, 1] 1 [2]) =
        .ok ({ cexGpuLayerB with backendType := Backend.CPU,
                                 grad_weights := gw, grad_biases := gb }, gi)) := by
  have h := c2_gpu_fallback_per_layer_amended cexGpuLayer
    (Tensor.mk [1, 1] 1 [1]) rfl (by decide) (by decide) (by decide)
  refine ⟨h.1, ?_⟩
  exact h.2.1 cexGpuLayerB (Tensor.mk [1, 1] 1 [2]) rfl (by decide) (by decide)
    (by decide) (by decide) (by decide) (by decide) (by decide) (by decide)

end NNCpp
